import Mathlib

/-!
Verification of the CityScope flask-backend ingestion pipeline.

Shallow embedding of the repository's Python source:
- `scraper/parsers/parser.py`  (PDF batch extraction, `cleanText`)
- `scraper/fetchers/fetch.py`  (discovery merge and recency ordering)
- `scraper/summarizer.py`      (Gemini summarization)
- `services/database.py`, `database.py` (Supabase persistence layer)
- `server.py`                  (read API routes)
- `scraper/orchestrator.py`    (pipeline composition)

External collaborators (HTTP transport, the PDF renderer, the Gemini
client, the Supabase store) are modelled at their interfaces exactly as
the source consumes them: fallible calls become `Option`/`Except`
parameters, and the store becomes an explicit list of rows with the
keyed-upsert semantics the spec assigns to the store collaborator.
Machine text is modelled as Lean `String`/`List Char`; Python `len` on
`str` becomes `String.length`.
-/

set_option maxRecDepth 16384

namespace CityScope

/-! ## Python string helpers -/

/-- The characters Python's `str.strip()` removes (ASCII whitespace:
space, tab, newline, carriage return, vertical tab, form feed). -/
def pyWhitespace (c : Char) : Bool :=
  c = ' ' || c = '\t' || c = '\n' || c = '\r' || c = '\x0b' || c = '\x0c'

/-- Python `str.strip()` on a character list: drop leading whitespace,
then drop trailing whitespace (via reverse). -/
def pyStripList (l : List Char) : List Char :=
  ((l.dropWhile pyWhitespace).reverse.dropWhile pyWhitespace).reverse

/-- Python `str.strip()` on a `String`. -/
def pyStrip (s : String) : String :=
  String.mk (pyStripList s.toList)

/-! ## `cleanText` (scraper/parsers/parser.py lines 162-181)

The three `re.sub` passes are modelled directly:
- `re.sub(r'\n\x7b3,\x7d', '\n\n', text)` caps each maximal run of
  newlines at 2 characters (runs of 1 or 2 are untouched, which is what
  the regex does since it only matches runs of length >= 3);
- `re.sub(r' \x7b2,\x7d', ' ', text)` caps each maximal run of spaces at 1;
- `re.sub(r'Page \d+ of \d+', '', text)` deletes every non-overlapping
  occurrence of the footer pattern, scanning left to right with greedy
  digit runs (greediness is exact here: a shorter digit run would leave
  a digit where the pattern requires a non-digit, so only the maximal
  run can match).
Both run-capping substitutions are instances of `collapseRunGo`. -/

/-- Cap every maximal run of the character `ch` at `cap` copies.
`k` counts the pending run of `ch` read so far; when the run ends (or
the input does) `min k cap` copies are emitted. -/
def collapseRunGo (ch : Char) (cap : Nat) : Nat → List Char → List Char
  | k, [] => List.replicate (min k cap) ch
  | k, c :: cs =>
    if c = ch then collapseRunGo ch cap (k + 1) cs
    else List.replicate (min k cap) ch ++ c :: collapseRunGo ch cap 0 cs

/-- `re.sub(r'\n\x7b3,\x7d', '\n\n', text)`: newline runs capped at 2. -/
def collapseNewlines (l : List Char) : List Char :=
  collapseRunGo '\n' 2 0 l

/-- `re.sub(r' \x7b2,\x7d', ' ', text)`: space runs capped at 1. -/
def collapseSpaces (l : List Char) : List Char :=
  collapseRunGo ' ' 1 0 l

/-- Match a literal character sequence at the head of the input,
returning the remainder on success. -/
def dropLit : List Char → List Char → Option (List Char)
  | [], l => some l
  | _ :: _, [] => none
  | p :: ps, x :: l => if x = p then dropLit ps l else none

/-- Consume the maximal leading digit run, returning its length and the
remainder (the semantics of a greedy `\d+`). -/
def takeDigits : List Char → Nat × List Char
  | [] => (0, [])
  | c :: cs =>
    if c.isDigit then
      let r := takeDigits cs
      (r.1 + 1, r.2)
    else (0, c :: cs)

/-- Try to match `Page \d+ of \d+` at the head of the input, returning
the remainder after the match. -/
def matchFooter (l : List Char) : Option (List Char) :=
  (dropLit "Page ".toList l).bind fun r1 =>
    if (takeDigits r1).1 = 0 then none
    else
      (dropLit " of ".toList (takeDigits r1).2).bind fun r3 =>
        if (takeDigits r3).1 = 0 then none else some (takeDigits r3).2

/-- Delete every non-overlapping leftmost occurrence of the footer
pattern. Fuel-driven so the definition is structural; `fuel = l.length`
always suffices because each step consumes at least one character. -/
def stripFootersGo : Nat → List Char → List Char
  | 0, l => l
  | _ + 1, [] => []
  | fuel + 1, c :: cs =>
    match matchFooter (c :: cs) with
    | some rest => stripFootersGo fuel rest
    | none => c :: stripFootersGo fuel cs

/-- `re.sub(r'Page \d+ of \d+', '', text)`. -/
def stripFooters (l : List Char) : List Char :=
  stripFootersGo l.length l

/-- `cleanText` from scraper/parsers/parser.py: the guard `if not text:
return ""` followed by the three `re.sub` passes and `.strip()`. -/
def cleanText (text : String) : String :=
  if text = "" then ""
  else
    String.mk (pyStripList (stripFooters (collapseSpaces (collapseNewlines text.toList))))

/-! ## Discovery (scraper/fetchers/fetch.py)

`extractDocumentsWithMetadata` drives a browser; the core consumes only
the list of document dictionaries it yields, so each page's scrape
result is a parameter here. Dates are compared by the source as
`datetime` objects; a `datetime` is modelled as a `Nat` encoding
(e.g. `20240110` for 2024-01-10), which has the same order. -/

/-- One entry of the list returned by `extractDocumentsWithMetadata`:
`{'document_id': ..., 'link_text': ..., 'meeting_date': ...,
'meeting_info': ...}`. -/
structure DocInfo where
  document_id : String
  link_text : String
  meeting_date : Option Nat
  meeting_info : String
deriving DecidableEq, Repr

/-- Insert `x` into a list already sorted descending by `key`, keeping
`x` in front of later elements with an equal key (the placement Python's
stable `sorted(..., key=key, reverse=True)` gives an earlier element). -/
def insertDescBy (key : α → Nat) (x : α) : List α → List α
  | [] => [x]
  | y :: ys => if key x < key y then y :: insertDescBy key x ys else x :: y :: ys

/-- Python `sorted(l, key=key, reverse=True)`: stable descending sort. -/
def sortDescBy (key : α → Nat) : List α → List α
  | [] => []
  | x :: xs => insertDescBy key x (sortDescBy key xs)

/-- `int(s)` on the digit strings captured by `DocumentId=(\d+)`:
fold the decimal digits (total; discovery only ever produces digit
strings, on which this agrees with Python's `int`). -/
def toNatD (s : String) : Nat :=
  s.toList.foldl (fun n c => n * 10 + (c.toNat - '0'.toNat)) 0

/-- The date key used to sort dated documents (`x['meeting_date']`;
only applied to documents whose date is present). -/
def dateKey (d : DocInfo) : Nat :=
  d.meeting_date.getD 0

/-- The id key used to sort undated documents (`int(x['document_id'])`). -/
def idKey (d : DocInfo) : Nat :=
  toNatD d.document_id

/-- `getRecentDocuments` (fetch.py lines 189-225): split into dated and
undated documents, sort the dated ones descending by date and the
undated ones descending by numeric id, concatenate dated-first, take
the first `limit`, and return just the document ids. -/
def getRecentDocuments (documents : List DocInfo) (limit : Nat) : List String :=
  let with_dates := documents.filter (fun d => d.meeting_date.isSome)
  let without_dates := documents.filter (fun d => d.meeting_date.isNone)
  let with_dates_sorted := sortDescBy dateKey with_dates
  let without_dates_sorted := sortDescBy idKey without_dates
  let all_sorted := with_dates_sorted ++ without_dates_sorted
  (all_sorted.take limit).map (fun d => d.document_id)

/-- `scrapeMultiplePages` (fetch.py lines 227-244), with each page's
scrape result supplied as data (the source hardcodes two page URLs and
obtains `pages` via the browser): accumulate pages in order, keeping
from each page only the documents whose id has not been accumulated
from *earlier* pages. -/
def scrapeMultiplePages (pages : List (List DocInfo)) : List DocInfo :=
  pages.foldl
    (fun all_documents docs =>
      all_documents ++
        docs.filter (fun d =>
          !(all_documents.any (fun e => e.document_id = d.document_id))))
    []

/-! ## Extractor batch (scraper/parsers/parser.py) -/

/-- The dictionary built by `parsePdfFromDocumentId` on success. The
fetch/render steps are external I/O, so the whole per-id extraction is
a fallible oracle `String → Option ParsedDoc` below. -/
structure ParsedDoc where
  document_id : String
  filename : String
  text : String
  text_length : Nat
  metadata : List (String × String)
  word_count : Nat
deriving DecidableEq, Repr

/-- Python truthiness of an optional integer argument (`if max_docs:` /
`if limit:` / `if max_documents`): `None` and `0` are both falsy. -/
def optTruthy : Option Nat → Bool
  | none => false
  | some n => n != 0

/-- `parseMultiplePdfs` (parser.py lines 127-160): optionally truncate
the id list (`if max_docs:`), then process ids sequentially, appending
each success to the first component and each failed id to the second. -/
def parseMultiplePdfs (parsePdf : String → Option ParsedDoc)
    (document_ids : List String) (max_docs : Option Nat) :
    List ParsedDoc × List String :=
  let ids := if optTruthy max_docs then document_ids.take (max_docs.getD 0)
             else document_ids
  ids.foldl
    (fun acc doc_id =>
      match parsePdf doc_id with
      | some result => (acc.1 ++ [result], acc.2)
      | none => (acc.1, acc.2 ++ [doc_id]))
    ([], [])

/-! ## Enricher (scraper/summarizer.py)

`summarizeDocument` sends one prompt to the Gemini client and wraps the
outcome; the external call is a parameter of type `Except String
String` (`Except.ok` carries `response.text`, `Except.error` the
exception message). Python's `round(x, 1)` is modelled on `ℚ`
as round-half-up to tenths; the claims checked here involve no
rounding ties, where float `round` (half-to-even) could differ. -/

/-- `round(x, 1)` to one decimal place on exact rationals. -/
def roundToTenths (q : ℚ) : ℚ :=
  (round (q * 10) : ℤ) / 10

/-- The dictionary `summarizeDocument` returns: the success shape has
`summary` set and no `error` key; the failure shape has `summary =
None`, an `error` message, and no length/ratio keys. -/
structure SummaryResult where
  document_id : String
  filename : String
  summary : Option String
  original_length : Option Nat
  summary_length : Option Nat
  compression_ratio : Option ℚ
  error : Option String
deriving DecidableEq, Repr

/-- `summarizeDocument` (summarizer.py lines 19-79). On a successful
model call the response text is stripped and returned as the summary
together with length bookkeeping and the guarded compression ratio;
an exception from the call yields the failure dictionary. -/
def summarizeDocument (document_text : String) (filename : String)
    (document_id : String) (modelResponse : Except String String) :
    SummaryResult :=
  match modelResponse with
  | Except.ok rtext =>
    let summary := pyStrip rtext
    { document_id := document_id
      filename := filename
      summary := some summary
      original_length := some document_text.length
      summary_length := some summary.length
      compression_ratio :=
        some (if summary.length > 0 then
                roundToTenths ((document_text.length : ℚ) / (summary.length : ℚ))
              else 0)
      error := none }
  | Except.error e =>
    { document_id := document_id
      filename := filename
      summary := none
      original_length := none
      summary_length := none
      compression_ratio := none
      error := some e }

/-! ## The spec's enrichment validation gate

The spec describes an Enricher that parses the model response as a JSON
object and accepts it only when `meeting_title` is non-empty and
`meeting_date` is present, non-null and non-empty. No such parsing or
validation exists anywhere in the source; the definitions below follow
the spec's words so the source's `summarizeDocument` can be compared
against them. -/

/-- A flat JSON value as the spec's response schema uses them: a string
or `null` (the spec's keys `meeting_title`, `meeting_date`, `summary`
carry strings or `null`). -/
inductive JsonVal where
  | str (s : String)
  | nullV
deriving DecidableEq, Repr

/-- JSON insignificant whitespace. -/
def skipWsJ (l : List Char) : List Char :=
  l.dropWhile (fun c => c = ' ' || c = '\n' || c = '\t' || c = '\r')

/-- Parse the body of a JSON string literal after the opening quote
(escape sequences are rejected; the spec's examples use none). -/
def jsonStrGo : List Char → List Char → Option (String × List Char)
  | [], _ => none
  | c :: rest, acc =>
    if c = '"' then some (String.mk acc.reverse, rest)
    else if c = '\\' then none
    else jsonStrGo rest (c :: acc)

/-- Parse one JSON value: a string literal or `null`. -/
def parseJsonVal (l : List Char) : Option (JsonVal × List Char) :=
  match skipWsJ l with
  | '"' :: rest => (jsonStrGo rest []).map (fun p => (JsonVal.str p.1, p.2))
  | 'n' :: 'u' :: 'l' :: 'l' :: rest => some (JsonVal.nullV, rest)
  | _ => none

/-- Parse the `"key": value` pairs after the opening brace of a JSON
object. Fuel-driven; each pair consumes at least one character, so
`fuel = l.length` suffices. -/
def parseJsonPairsGo : Nat → List Char → List (String × JsonVal) →
    Option (List (String × JsonVal) × List Char)
  | 0, _, _ => none
  | fuel + 1, l, acc =>
    match skipWsJ l with
    | '\x7d' :: rest => some (acc.reverse, rest)
    | '"' :: rest =>
      match jsonStrGo rest [] with
      | none => none
      | some (key, r1) =>
        match skipWsJ r1 with
        | ':' :: r2 =>
          match parseJsonVal r2 with
          | none => none
          | some (v, r3) =>
            match skipWsJ r3 with
            | ',' :: r4 => parseJsonPairsGo fuel r4 ((key, v) :: acc)
            | '\x7d' :: r4 => some (((key, v) :: acc).reverse, r4)
            | _ => none
        | _ => none
    | _ => none

/-- Modelled from the spec: parse a model response as a flat JSON
object (the shape `\x7b"meeting_title": ..., "meeting_date": ...,
"summary": ...\x7d` the spec's Enricher expects); `none` is the spec's
`json_parse_error`. -/
def parseJsonObject (s : String) : Option (List (String × JsonVal)) :=
  match skipWsJ s.toList with
  | '\x7b' :: rest =>
    match parseJsonPairsGo (rest.length + 1) rest [] with
    | none => none
    | some (pairs, rest2) => if skipWsJ rest2 = [] then some pairs else none
  | _ => none

/-- Modelled from the spec: strip leading/trailing code-fence markers
from the raw model response before JSON parsing. -/
def stripCodeFences (s : String) : String :=
  let l := pyStripList s.toList
  let l1 := match dropLit "```json".toList l with
            | some r => r
            | none => match dropLit "```".toList l with
                      | some r => r
                      | none => l
  let l2 := match dropLit "```".toList.reverse l1.reverse with
            | some r => r.reverse
            | none => l1
  String.mk (pyStripList l2)

/-- Modelled from the spec: the Enricher's validation gate. A response
is accepted only if it parses as JSON, `meeting_title` is a non-empty
string, and `meeting_date` is present, non-null and non-empty. -/
def specGateAccepts (response : String) : Bool :=
  match parseJsonObject (stripCodeFences response) with
  | none => false
  | some obj =>
    (match obj.lookup "meeting_title" with
     | some (JsonVal.str t) => t != ""
     | _ => false)
    &&
    (match obj.lookup "meeting_date" with
     | some (JsonVal.str d) => d != ""
     | _ => false)

/-! ## Persistence (database.py / services/database.py)

The Supabase client is the store collaborator; following the spec's
interface for it (keyed upsert-on-conflict, equality filter by key,
descending order by `created_at`), the store is a list of rows and the
operations below are the source functions with the client call replaced
by that model. `saveSummaryToDatabase` is embedded from
flask-backend/database.py, whose record carries the claim's
title/date/summary/url fields (the services/ variant differs only in
carrying `filename`/`raw_text` instead of `meeting_date`). -/

/-- Zero-pad to two digits (`%m`, `%d` of `strftime`). -/
def pad2 (n : Nat) : String :=
  if n < 10 then "0" ++ toString n else toString n

/-- Zero-pad to four digits (`%Y` of `strftime`). -/
def pad4 (n : Nat) : String :=
  if n < 10 then "000" ++ toString n
  else if n < 100 then "00" ++ toString n
  else if n < 1000 then "0" ++ toString n
  else toString n

/-- `meeting_date.strftime('%Y-%m-%d')` on a (year, month, day) date. -/
def formatDateYMD : Nat × Nat × Nat → String
  | (y, m, d) => pad4 y ++ "-" ++ pad2 m ++ "-" ++ pad2 d

/-- The `summary_data` dictionary a successful summarization feeds to
the save path (`document_id`, optional `filename`, `summary`). -/
structure SummaryData where
  document_id : String
  filename : Option String
  summary : String
deriving DecidableEq, Repr

/-- The `document_metadata` dictionary (optional `meeting_title` and
`meeting_date` keys; `dict.get` defaults model missing keys). -/
structure DocMetadata where
  meeting_title : Option String
  meeting_date : Option (Nat × Nat × Nat)
deriving DecidableEq, Repr

/-- The columns `saveSummaryToDatabase` submits to the store;
`meeting_date = none` means the key is absent from the payload, in
which case the upsert leaves the stored column untouched. -/
structure DbNewRecord where
  document_id : String
  summary : String
  original_url : String
  meeting_title : String
  meeting_date : Option String
deriving DecidableEq, Repr

/-- A persisted row of `meeting_summaries`, with the store-assigned
`created_at` timestamp. -/
structure DbRow where
  document_id : String
  summary : String
  original_url : String
  meeting_title : String
  meeting_date : Option String
  created_at : Nat
deriving DecidableEq, Repr

/-- The derived `original_url` column. -/
def originalUrlFor (document_id : String) : String :=
  "https://pub-london.escribemeetings.com/FileStream.ashx?DocumentId=" ++ document_id

/-- The `db_record` built by `saveSummaryToDatabase` (database.py lines
29-43): `meeting_title` falls back from the metadata to the filename to
`'Unknown Meeting'`; `meeting_date` is included only when the metadata
provides one (`if document_metadata.get('meeting_date'):`). -/
def buildDbRecord (summary_data : SummaryData) (document_metadata : Option DocMetadata) :
    DbNewRecord :=
  { document_id := summary_data.document_id
    summary := summary_data.summary
    original_url := originalUrlFor summary_data.document_id
    meeting_title :=
      match document_metadata with
      | some md => md.meeting_title.getD (summary_data.filename.getD "Unknown Meeting")
      | none => summary_data.filename.getD "Unknown Meeting"
    meeting_date :=
      match document_metadata with
      | some md => md.meeting_date.map formatDateYMD
      | none => none }

/-- Modelled from the spec: how the store collaborator applies an
upsert payload to the conflicting row — mutable columns present in the
payload are replaced, absent columns and `created_at` are kept. -/
def upsertApply (row : DbRow) (r : DbNewRecord) : DbRow :=
  { row with
    summary := r.summary
    original_url := r.original_url
    meeting_title := r.meeting_title
    meeting_date := match r.meeting_date with
                    | some d => some d
                    | none => row.meeting_date }

/-- Modelled from the spec: the store collaborator's keyed
upsert-on-conflict (`upsert(db_record, on_conflict='document_id')`):
update the row with the matching id if one exists, else append a new
row with a store-assigned `created_at`. -/
def upsertRow (store : List DbRow) (ts : Nat) (r : DbNewRecord) : List DbRow :=
  if store.any (fun row => row.document_id = r.document_id) then
    store.map (fun row =>
      if row.document_id = r.document_id then upsertApply row r else row)
  else
    store ++ [{ document_id := r.document_id
                summary := r.summary
                original_url := r.original_url
                meeting_title := r.meeting_title
                meeting_date := r.meeting_date
                created_at := ts }]

/-- `saveSummaryToDatabase` (database.py lines 18-56) on a healthy
store: build the record and upsert it keyed by `document_id`. -/
def saveSummaryToDatabase (store : List DbRow) (ts : Nat)
    (summary_data : SummaryData) (document_metadata : Option DocMetadata) :
    List DbRow :=
  upsertRow store ts (buildDbRecord summary_data document_metadata)

/-- The store's descending-order query by `created_at`
(`.order('created_at', desc=True)`), spec-modelled for the read paths. -/
def storeOrderByCreatedDesc (store : List DbRow) : List DbRow :=
  sortDescBy (fun r => r.created_at) store

/-- `getAllSummaries` (database.py lines 95-108 /
services/database.py lines 95-116) on a healthy store: order by
`created_at` descending and apply `.limit(limit)` only when `limit` is
truthy (`if limit:` — `None` and `0` both skip the truncation). -/
def getAllSummaries (store : List DbRow) (limit : Option Nat) : List DbRow :=
  let query := storeOrderByCreatedDesc store
  if optTruthy limit then query.take (limit.getD 0) else query

/-- The store's equality filter by key (`.eq('document_id', id)`),
wrapped in `Except` so a store failure can be represented: the
functions below receive the query outcome. -/
def storeSelectIdEq (store : List DbRow) (document_id : String) :
    Except String (List DbRow) :=
  Except.ok (store.filter (fun r => r.document_id = document_id))

/-- `getSummaryByDocumentId` (services/database.py lines 118-128),
taking the outcome of the store query: `result.data[0] if result.data
else None`, and `None` when the store call raises (the function's own
`except` clause catches every exception). -/
def getSummaryByDocumentId (queryResult : Except String (List DbRow)) : Option DbRow :=
  match queryResult with
  | Except.ok data => data.head?
  | Except.error _ => none

/-- `checkIfDocumentExists` (services/database.py lines 130-139),
taking the outcome of the store query: `len(result.data) > 0`, and
`False` when the store call raises. -/
def checkIfDocumentExists (queryResult : Except String (List DbRow)) : Bool :=
  match queryResult with
  | Except.ok data => decide (data.length > 0)
  | Except.error _ => false

/-! ## Read API (server.py) -/

/-- A route response: HTTP status plus the `\x7bsuccess, data|error\x7d`
JSON envelope. -/
structure ApiResponse where
  status : Nat
  success : Bool
  data : Option DbRow
  error : Option String
deriving DecidableEq, Repr

/-- `GET /summaries/<document_id>` (server.py lines 42-65). The only
fallible call inside the route's `try` is `getSummaryByDocumentId`,
which catches every exception itself and returns `None`; the route maps
a present row to 200 and `None` to 404. The route's own `except`
branch (500) is therefore unreachable for store failures. -/
def get_summary (queryResult : Except String (List DbRow)) : ApiResponse :=
  match getSummaryByDocumentId queryResult with
  | some summary => { status := 200, success := true, data := some summary, error := none }
  | none => { status := 404, success := false, data := none, error := some "Summary not found" }

/-- `GET /summaries?limit=N` (server.py lines 20-40): the flask arg
parse `request.args.get('limit', default=30, type=int)` (absent query
parameter → 30), then `getAllSummaries(limit=limit)`. -/
def get_summaries (store : List DbRow) (limitParam : Option Nat) : List DbRow :=
  getAllSummaries store (some (limitParam.getD 30))

/-! ## Pipeline orchestration (scraper/orchestrator.py) -/

/-- The document-selection stage of `runCompletePipeline` (orchestrator.py
lines 40-48): sort all discovered documents descending by
`int(x['document_id'])`, truncate via
`all_documents[:max_documents] if max_documents else all_documents[:30]`
(so `None` and `0` both fall back to 30), and keep just the ids.
No store is consulted anywhere in this stage. -/
def runCompletePipelineSelect (all_documents : List DocInfo)
    (max_documents : Option Nat) : List String :=
  let sorted := sortDescBy idKey all_documents
  let recent_docs := if optTruthy max_documents then sorted.take (max_documents.getD 0)
                     else sorted.take 30
  recent_docs.map (fun d => d.document_id)

/-! ## Predicates for reasoning about `cleanText`

Decidable scans stating that a character list has no run of a given
character longer than `cap`, and no occurrence of the footer pattern. -/

/-- Scan for a run of `ch` longer than `cap`; `k` is the length of the
current run read so far. -/
def noRunOverGo (ch : Char) (cap : Nat) : Nat → List Char → Bool
  | _, [] => true
  | k, c :: cs =>
    if c = ch then decide (k + 1 ≤ cap) && noRunOverGo ch cap (k + 1) cs
    else noRunOverGo ch cap 0 cs

/-- The list has no run of `ch` of length greater than `cap`. -/
def noRunOver (ch : Char) (cap : Nat) (l : List Char) : Bool :=
  noRunOverGo ch cap 0 l

/-- No suffix of the list starts with a `Page \d+ of \d+` match. -/
def noFooter : List Char → Bool
  | [] => true
  | c :: cs => (matchFooter (c :: cs)).isNone && noFooter cs

/-! ## Concrete example inputs used by the claim theorems -/

/-- The spec's recency-ordering example: ids 3 (2024-01-10), 9 (no
date), 1 (2024-02-01). -/
def exampleRecencyDocs : List DocInfo :=
  [{ document_id := "3", link_text := "", meeting_date := some 20240110, meeting_info := "" },
   { document_id := "9", link_text := "", meeting_date := none, meeting_info := "" },
   { document_id := "1", link_text := "", meeting_date := some 20240201, meeting_info := "" }]

/-- A discovery candidate with the spec's example identifier 12345. -/
def exampleDupDoc : DocInfo :=
  { document_id := "12345", link_text := "Minutes", meeting_date := none, meeting_info := "" }

/-- Two discovered documents for the duplicate-filter scenario. -/
def examplePipelineDocs : List DocInfo :=
  [{ document_id := "4", link_text := "", meeting_date := none, meeting_info := "" },
   { document_id := "5", link_text := "", meeting_date := none, meeting_info := "" }]

/-- A store that already holds a row for document id 5. -/
def exampleStore : List DbRow :=
  [{ document_id := "5", summary := "old summary", original_url := originalUrlFor "5",
     meeting_title := "Old Meeting", meeting_date := none, created_at := 1 }]

/-- A parsed-document dictionary for id `i`. -/
def exampleParsedDoc (i : String) : ParsedDoc :=
  { document_id := i, filename := "doc_" ++ i ++ ".pdf", text := "text",
    text_length := 4, metadata := [], word_count := 1 }

/-- An extraction oracle that fails exactly on id "b" (the spec's
three-target, second-fails scenario). -/
def exampleParsePdf (i : String) : Option ParsedDoc :=
  if i = "b" then none else some (exampleParsedDoc i)

/-- Summary data for the upsert-idempotence witness. -/
def exampleSummaryData : SummaryData :=
  { document_id := "7", filename := some "f.pdf", summary := "the summary" }

/-- Document metadata for the upsert-idempotence witness. -/
def exampleMetadata : DocMetadata :=
  { meeting_title := some "Council Meeting", meeting_date := some (2024, 1, 15) }

/-! # Lemmas and claim theorems -/

/-! ## Stable descending sort -/

theorem insertDescBy_perm (key : α → Nat) (x : α) (l : List α) :
    (insertDescBy key x l).Perm (x :: l) := by
  induction l with
  | nil => simp [insertDescBy]
  | cons y ys ih =>
    by_cases h : key x < key y
    · simp only [insertDescBy, if_pos h]
      exact ((ih.cons y).trans (List.Perm.swap x y ys))
    · simp [insertDescBy, if_neg h]

theorem sortDescBy_perm (key : α → Nat) (l : List α) :
    (sortDescBy key l).Perm l := by
  induction l with
  | nil => simp [sortDescBy]
  | cons x xs ih =>
    exact (insertDescBy_perm key x (sortDescBy key xs)).trans (ih.cons x)

theorem mem_insertDescBy (key : α → Nat) (x y : α) (l : List α) :
    y ∈ insertDescBy key x l ↔ y = x ∨ y ∈ l := by
  rw [(insertDescBy_perm key x l).mem_iff, List.mem_cons]

theorem pairwise_insertDescBy (key : α → Nat) (x : α) {l : List α}
    (h : l.Pairwise (fun a b => key b ≤ key a)) :
    (insertDescBy key x l).Pairwise (fun a b => key b ≤ key a) := by
  induction l with
  | nil => simp [insertDescBy]
  | cons y ys ih =>
    rw [List.pairwise_cons] at h
    by_cases hlt : key x < key y
    · simp only [insertDescBy, if_pos hlt]
      rw [List.pairwise_cons]
      refine ⟨fun z hz => ?_, ih h.2⟩
      rcases (mem_insertDescBy key x z ys).mp hz with rfl | hz
      · exact Nat.le_of_lt hlt
      · exact h.1 z hz
    · simp only [insertDescBy, if_neg hlt]
      rw [List.pairwise_cons]
      refine ⟨fun z hz => ?_, List.pairwise_cons.mpr h⟩
      rcases List.mem_cons.mp hz with rfl | hz
      · exact Nat.le_of_not_lt hlt
      · exact Nat.le_trans (h.1 z hz) (Nat.le_of_not_lt hlt)

theorem pairwise_sortDescBy (key : α → Nat) (l : List α) :
    (sortDescBy key l).Pairwise (fun a b => key b ≤ key a) := by
  induction l with
  | nil => simp [sortDescBy]
  | cons x xs ih => exact pairwise_insertDescBy key x ih

/-! ## C3: recency ordering of `getRecentDocuments` -/

/-- C3. The selection-for-processing order of `getRecentDocuments`
ranks dated documents first, sorted descending by parsed date, then
undated documents sorted descending by numeric id, with the caller's
limit applied after sorting; on the spec's example candidates
(id 3 dated 2024-01-10, id 9 undated, id 1 dated 2024-02-01) the
resulting order is 1, 3, 9. -/
theorem claim_C3 :
    getRecentDocuments exampleRecencyDocs 30 = ["1", "3", "9"]
    ∧ ∀ (documents : List DocInfo) (limit : Nat),
        ∃ dated undated : List DocInfo,
          dated.Pairwise (fun a b => dateKey b ≤ dateKey a)
          ∧ undated.Pairwise (fun a b => idKey b ≤ idKey a)
          ∧ (∀ d ∈ dated, d.meeting_date.isSome = true)
          ∧ (∀ d ∈ undated, d.meeting_date = none)
          ∧ dated.Perm (documents.filter (fun d => d.meeting_date.isSome))
          ∧ undated.Perm (documents.filter (fun d => d.meeting_date.isNone))
          ∧ getRecentDocuments documents limit
              = ((dated ++ undated).take limit).map (fun d => d.document_id) := by
  constructor
  · decide
  · intro documents limit
    refine ⟨sortDescBy dateKey (documents.filter (fun d => d.meeting_date.isSome)),
            sortDescBy idKey (documents.filter (fun d => d.meeting_date.isNone)),
            pairwise_sortDescBy _ _, pairwise_sortDescBy _ _, ?_, ?_, ?_, ?_, rfl⟩
    · intro d hd
      have hm := (sortDescBy_perm dateKey _).mem_iff.mp hd
      exact (List.mem_filter.mp hm).2
    · intro d hd
      have hm := (sortDescBy_perm idKey _).mem_iff.mp hd
      exact Option.isNone_iff_eq_none.mp (List.mem_filter.mp hm).2
    · exact sortDescBy_perm _ _
    · exact sortDescBy_perm _ _

/-! ## C7: discovery merge -/

theorem scrapeMultiplePages_foldl_nodup (pages : List (List DocInfo)) :
    ∀ acc : List DocInfo,
      (acc.map (fun d => d.document_id)).Nodup →
      (∀ p ∈ pages, (p.map (fun d => d.document_id)).Nodup) →
      ((pages.foldl
          (fun all_documents docs =>
            all_documents ++
              docs.filter (fun d =>
                !(all_documents.any (fun e => e.document_id = d.document_id))))
          acc).map (fun d => d.document_id)).Nodup := by
  induction pages with
  | nil => intro acc hacc _; simpa using hacc
  | cons p ps ih =>
    intro acc hacc hpages
    simp only [List.foldl_cons]
    refine ih _ ?_ (fun q hq => hpages q (List.mem_cons_of_mem p hq))
    rw [List.map_append, List.nodup_append]
    refine ⟨hacc, ?_, ?_⟩
    · exact ((List.filter_sublist p).map (fun d => d.document_id)).nodup
        (hpages p (List.mem_cons_self p ps))
    · intro a ha hb
      rcases List.mem_map.mp ha with ⟨e, he, rfl⟩
      rcases List.mem_map.mp hb with ⟨d, hd, hid⟩
      rcases List.mem_filter.mp hd with ⟨_, hcond⟩
      rw [Bool.not_eq_eq_eq_not, Bool.not_true, List.any_eq_false] at hcond
      exact absurd hid.symm (by simpa using hcond e he)

/-- C7 counterexample: the claim "the merged discovery output contains
each document identifier at most once" is false — a page whose own
scrape result lists an id twice contributes it twice, because the merge
filters only against ids accumulated from earlier pages. -/
theorem claim_C7_counterexample :
    ¬ (∀ pages : List (List DocInfo),
        ((scrapeMultiplePages pages).map (fun d => d.document_id)).Nodup) := by
  intro h
  exact absurd (h [[exampleDupDoc, exampleDupDoc]]) (by decide)

/-- C7 (amended). `scrapeMultiplePages` de-duplicates across pages
only: whenever each single page's scrape result has no internal
duplicate ids, the merged output has each identifier at most once, and
an id appearing on two different pages (the spec's 12345 example)
contributes exactly one candidate; but duplicates inside one page's
result are all kept. -/
theorem claim_C7 :
    (∀ pages : List (List DocInfo),
      (∀ p ∈ pages, (p.map (fun d => d.document_id)).Nodup) →
      ((scrapeMultiplePages pages).map (fun d => d.document_id)).Nodup)
    ∧ (scrapeMultiplePages [[exampleDupDoc], [exampleDupDoc]]).map
        (fun d => d.document_id) = ["12345"] := by
  constructor
  · intro pages hpages
    exact scrapeMultiplePages_foldl_nodup pages [] (by simp) hpages
  · decide

/-- C7 witness: the amended theorem applied to the spec's two-page
scenario, both pages listing id 12345 once. -/
theorem claim_C7_witness :
    ((scrapeMultiplePages [[exampleDupDoc], [exampleDupDoc]]).map
      (fun d => d.document_id)).Nodup :=
  claim_C7.1 [[exampleDupDoc], [exampleDupDoc]] (by decide)

/-! ## C8: sequential batch extraction with partial-failure isolation -/

theorem parseMultiplePdfs_foldl (parsePdf : String → Option ParsedDoc)
    (ids : List String) :
    ∀ (a : List ParsedDoc) (b : List String),
      ids.foldl
        (fun acc doc_id =>
          match parsePdf doc_id with
          | some result => (acc.1 ++ [result], acc.2)
          | none => (acc.1, acc.2 ++ [doc_id]))
        (a, b)
      = (a ++ ids.filterMap parsePdf,
         b ++ ids.filter (fun i => (parsePdf i).isNone)) := by
  induction ids with
  | nil => intro a b; simp
  | cons i ids ih =>
    intro a b
    cases h : parsePdf i with
    | some r =>
      simp only [List.foldl_cons, h, ih, List.filterMap_cons, h, List.filter_cons,
        Option.isNone_some, List.append_assoc]
      simp [h]
    | none =>
      simp only [List.foldl_cons, h, ih, List.filterMap_cons, h, List.filter_cons,
        Option.isNone_none, List.append_assoc]
      simp [h]

/-- C8. `parseMultiplePdfs` processes the given ids sequentially and
returns the successes (in the caller's id order) paired with the failed
ids; one id's failure does not block subsequent ids. In the spec's
three-target scenario where the second target fails, the result holds
successes for the first and third in that order and one failure entry
for the second. -/
theorem claim_C8 :
    (∀ (parsePdf : String → Option ParsedDoc) (ids : List String),
      parseMultiplePdfs parsePdf ids none
        = (ids.filterMap parsePdf, ids.filter (fun i => (parsePdf i).isNone)))
    ∧ parseMultiplePdfs exampleParsePdf ["a", "b", "c"] none
        = ([exampleParsedDoc "a", exampleParsedDoc "c"], ["b"]) := by
  constructor
  · intro parsePdf ids
    show ids.foldl _ ([], []) = _
    rw [parseMultiplePdfs_foldl parsePdf ids [] []]
    simp
  · decide

/-! ## C10: a limit of 0 means "no limit given" -/

/-- C10. Python truthiness makes `0` behave like "absent" at every
truncation point: `runCompletePipeline` with `max_documents=0` selects
the default 30 most recent documents (exactly as with
`max_documents=None`), and `getAllSummaries` with `limit=0` — also as
reached via `GET /summaries?limit=0` — returns every persisted row. -/
theorem claim_C10 :
    (∀ docs : List DocInfo,
      runCompletePipelineSelect docs (some 0) = runCompletePipelineSelect docs none)
    ∧ (∀ docs : List DocInfo,
      (runCompletePipelineSelect docs (some 0)).length = min 30 docs.length)
    ∧ (∀ store : List DbRow,
      getAllSummaries store (some 0) = getAllSummaries store none)
    ∧ (∀ store : List DbRow, (getAllSummaries store (some 0)).length = store.length)
    ∧ (∀ store : List DbRow, get_summaries store (some 0) = storeOrderByCreatedDesc store)
    := by
  refine ⟨fun docs => rfl, fun docs => ?_, fun store => rfl, fun store => ?_, fun store => rfl⟩
  · unfold runCompletePipelineSelect
    simp [optTruthy, (sortDescBy_perm idKey docs).length_eq]
  · unfold getAllSummaries storeOrderByCreatedDesc
    simp [optTruthy, (sortDescBy_perm (fun r => r.created_at) store).length_eq]

/-! ## C2: the pipeline has no duplicate-filter stage -/

theorem runCompletePipelineSelect_eq (docs : List DocInfo) (m : Option Nat) :
    runCompletePipelineSelect docs m
      = ((sortDescBy idKey docs).take
          (if optTruthy m then m.getD 0 else 30)).map (fun d => d.document_id) := by
  unfold runCompletePipelineSelect
  by_cases hm : optTruthy m <;> simp [hm]

/-- C2 counterexample: the claim that the pipeline selects only ids
that do not already exist in the store is false — `runCompletePipeline`
never consults the store: with documents 4 and 5 discovered, a store
already holding id 5, and `max_documents=1`, the selection is exactly
["5"], an id the persistence `exists` check reports as present. -/
theorem claim_C2_counterexample :
    ¬ (∀ (docs : List DocInfo) (m : Option Nat) (store : List DbRow),
        ∀ i ∈ runCompletePipelineSelect docs m,
          checkIfDocumentExists (storeSelectIdEq store i) = false) := by
  intro h
  exact absurd (h examplePipelineDocs (some 1) exampleStore "5" (by decide)) (by decide)

/-- C2 (amended). `runCompletePipeline` performs no duplicate
filtering: it sorts the discovery result descending by numeric id and
truncates it to `max_documents` (30 when `max_documents` is `None` or
`0`), independent of the persistence store — the selection is sorted
descending, has exactly `min limit` discovered-count elements, and
contains only discovered ids; concretely, with a store already holding
id 5 the selection is still ["5"] even though `checkIfDocumentExists`
reports that id as present, and nothing is counted as skipped. -/
theorem claim_C2 :
    (∀ (docs : List DocInfo) (m : Option Nat),
      (runCompletePipelineSelect docs m).Pairwise (fun a b => toNatD b ≤ toNatD a))
    ∧ (∀ (docs : List DocInfo) (m : Option Nat),
      (runCompletePipelineSelect docs m).length
        = min (if optTruthy m then m.getD 0 else 30) docs.length)
    ∧ (∀ (docs : List DocInfo) (m : Option Nat),
      ∀ i ∈ runCompletePipelineSelect docs m, ∃ d ∈ docs, d.document_id = i)
    ∧ (runCompletePipelineSelect examplePipelineDocs (some 1) = ["5"]
       ∧ checkIfDocumentExists (storeSelectIdEq exampleStore "5") = true) := by
  refine ⟨?_, ?_, ?_, by decide⟩
  · intro docs m
    rw [runCompletePipelineSelect_eq, List.pairwise_map]
    exact (pairwise_sortDescBy idKey docs).sublist (List.take_sublist _ _)
  · intro docs m
    rw [runCompletePipelineSelect_eq, List.length_map, List.length_take,
      (sortDescBy_perm idKey docs).length_eq]
  · intro docs m i hi
    rw [runCompletePipelineSelect_eq] at hi
    rcases List.mem_map.mp hi with ⟨d, hd, rfl⟩
    have hmem : d ∈ sortDescBy idKey docs := List.mem_of_mem_take hd
    exact ⟨d, (sortDescBy_perm idKey docs).mem_iff.mp hmem, rfl⟩

/-- C2 witness: the amended theorem's membership clause applied to the
concrete scenario — the selected id 5 is a discovered document's id. -/
theorem claim_C2_witness :
    ∃ d ∈ examplePipelineDocs, d.document_id = "5" :=
  claim_C2.2.2.1 examplePipelineDocs (some 1) "5" (by decide)

/-! ## C1: the enricher performs no response validation -/

/-- C1 counterexample: the claim that `summarizeDocument` accepts a
model response only if it parses as JSON with a non-empty
`meeting_title` and a present, non-null, non-empty `meeting_date`
(yielding `None` otherwise) is false at the plain-prose response
"Approved the budget.": the spec's validation gate rejects it (it is
not JSON), yet the code returns it as the accepted summary, not
`None`. -/
theorem claim_C1_counterexample :
    ¬ (∀ text fn id response : String,
        specGateAccepts response = false →
        (summarizeDocument text fn id (Except.ok response)).summary = none) := by
  intro h
  exact absurd (h "minutes" "f.pdf" "1" "Approved the budget." (by decide)) (by decide)

/-- C1 (amended). `summarizeDocument` performs no JSON parsing and no
title/date validation at all: every successful model call is accepted,
with `summary` equal to the stripped response text and no error
recorded — in particular responses the spec's validation gate rejects
(such as plain prose) are still accepted — and only an exception from
the model call itself yields `summary = None`, with the exception
message as the single failure reason (there is no `json_parse_error`
vs. `missing_title_or_date` distinction, and the result carries no
title or date at all). -/
theorem claim_C1 :
    (∀ text fn id response : String,
      (summarizeDocument text fn id (Except.ok response)).summary
          = some (pyStrip response)
      ∧ (summarizeDocument text fn id (Except.ok response)).error = none)
    ∧ (∀ text fn id e : String,
      (summarizeDocument text fn id (Except.error e)).summary = none
      ∧ (summarizeDocument text fn id (Except.error e)).error = some e)
    ∧ specGateAccepts "Approved the budget." = false
    ∧ (summarizeDocument "minutes" "f.pdf" "1"
        (Except.ok "Approved the budget.")).summary = some "Approved the budget." := by
  exact ⟨fun _ _ _ _ => ⟨rfl, rfl⟩, fun _ _ _ _ => ⟨rfl, rfl⟩, by decide, by decide⟩

/-! ## C9: the compression ratio is rounded to one decimal -/

/-- C9 counterexample: the claim that on acceptance
`compression_ratio` equals the source character count divided by the
summary character count is false — the code rounds the quotient to one
decimal: a 1-character source with a 3-character summary yields
3/10, not 1/3. -/
theorem claim_C9_counterexample :
    ¬ (∀ text fn id response : String,
        0 < (pyStrip response).length →
        (summarizeDocument text fn id (Except.ok response)).compression_ratio
          = some ((text.length : ℚ) / ((pyStrip response).length : ℚ))) := by
  intro h
  have h1 := h "x" "doc.pdf" "1" "abc" (by decide)
  have h2 : (summarizeDocument "x" "doc.pdf" "1" (Except.ok "abc")).compression_ratio
      = some ((3 : ℚ) / 10) := by
    show some (if 0 < (pyStrip "abc").length
        then roundToTenths (("x".length : ℚ) / ((pyStrip "abc").length : ℚ))
        else 0) = some ((3 : ℚ) / 10)
    rw [show (pyStrip "abc").length = 3 from by decide,
      show "x".length = 1 from rfl]
    norm_num [roundToTenths, round_eq]
  rw [h2] at h1
  have h3 := Option.some.inj h1
  rw [show (pyStrip "abc").length = 3 from by decide,
    show "x".length = 1 from rfl] at h3
  norm_num at h3

/-- C9 (amended). On a successful summarization `summarizeDocument`
computes `compression_ratio` as the source character count divided by
the summary character count *rounded to one decimal place*, with the
division guarded: a 1000-character source and a 100-character summary
yield exactly 10, and a zero-length summary yields 0 rather than a
division-by-zero error. -/
theorem claim_C9 :
    (∀ text fn id response : String,
      (summarizeDocument text fn id (Except.ok response)).compression_ratio
        = some (if 0 < (pyStrip response).length
                then roundToTenths ((text.length : ℚ) / ((pyStrip response).length : ℚ))
                else 0))
    ∧ (summarizeDocument (String.mk (List.replicate 1000 'a')) "f" "1"
        (Except.ok (String.mk (List.replicate 100 'b')))).compression_ratio = some 10
    ∧ (summarizeDocument "source text" "f" "1" (Except.ok "")).compression_ratio
        = some 0 := by
  refine ⟨fun text fn id response => rfl, ?_, ?_⟩
  · show some (if 0 < (pyStrip (String.mk (List.replicate 100 'b'))).length
        then roundToTenths (((String.mk (List.replicate 1000 'a')).length : ℚ)
          / ((pyStrip (String.mk (List.replicate 100 'b'))).length : ℚ))
        else 0) = some (10 : ℚ)
    rw [show (pyStrip (String.mk (List.replicate 100 'b'))).length = 100 from by decide,
      show (String.mk (List.replicate 1000 'a')).length = 1000 from by decide]
    norm_num [roundToTenths, round_eq]
  · show some (if 0 < (pyStrip "").length
        then roundToTenths (("source text".length : ℚ) / ((pyStrip "").length : ℚ))
        else 0) = some (0 : ℚ)
    rw [show (pyStrip "").length = 0 from by decide]
    norm_num

/-! ## C6: a store read failure surfaces as 404, not 500 -/

/-- C6 counterexample: the claim that `GET /summaries/<id>` returns
HTTP 500 when the persistent store read fails is false — the
persistence layer catches the store exception and returns `None`, which
the route maps to 404 "Summary not found": a store error is reported
exactly like a missing record. -/
theorem claim_C6_counterexample :
    ¬ (∀ e : String, (get_summary (Except.error e)).status = 500) := by
  intro h
  exact absurd (h "connection refused") (by decide)

/-- C6 (amended). `GET /summaries/<id>` returns a `success`/`data`-or-
`error` envelope and 404 when no record exists, but a failing store
read also surfaces as 404 with "Summary not found" (never 500),
because `getSummaryByDocumentId` swallows every store exception into
`None`; the route's own 500 branch is unreachable for store failures,
so a store error is indistinguishable from a missing record. -/
theorem claim_C6 :
    (∀ e : String,
      get_summary (Except.error e)
        = { status := 404, success := false, data := none,
            error := some "Summary not found" })
    ∧ get_summary (Except.ok [])
        = { status := 404, success := false, data := none,
            error := some "Summary not found" }
    ∧ (∀ (r : DbRow) (rest : List DbRow),
      get_summary (Except.ok (r :: rest))
        = { status := 200, success := true, data := some r, error := none })
    ∧ (∀ queryResult : Except String (List DbRow),
      ((get_summary queryResult).success = true
          ∧ (get_summary queryResult).error = none
          ∧ (get_summary queryResult).data.isSome = true)
      ∨ ((get_summary queryResult).success = false
          ∧ (get_summary queryResult).data = none
          ∧ (get_summary queryResult).error.isSome = true)) := by
  refine ⟨fun e => rfl, rfl, fun r rest => rfl, fun queryResult => ?_⟩
  cases queryResult with
  | error e => exact Or.inr ⟨rfl, rfl, rfl⟩
  | ok data =>
    cases data with
    | nil => exact Or.inr ⟨rfl, rfl, rfl⟩
    | cons r rest => exact Or.inl ⟨rfl, rfl, rfl⟩

/-! ## C4: the keyed upsert keeps one row per id -/

theorem upsertApply_document_id (row : DbRow) (r : DbNewRecord) :
    (upsertApply row r).document_id = row.document_id := rfl

theorem upsertRow_map_id (store : List DbRow) (ts : Nat) (r : DbNewRecord) :
    (upsertRow store ts r).map (fun row => row.document_id)
      = if store.any (fun row => row.document_id = r.document_id)
        then store.map (fun row => row.document_id)
        else store.map (fun row => row.document_id) ++ [r.document_id] := by
  unfold upsertRow
  by_cases h : (store.any fun row => row.document_id = r.document_id) = true
  · rw [if_pos h, if_pos h, List.map_map]
    congr 1
    funext row
    by_cases hid : row.document_id = r.document_id <;>
      simp [Function.comp, hid, upsertApply]
  · rw [if_neg h, if_neg h]
    simp

theorem upsertRow_nodup (store : List DbRow) (ts : Nat) (r : DbNewRecord)
    (h : (store.map (fun row => row.document_id)).Nodup) :
    ((upsertRow store ts r).map (fun row => row.document_id)).Nodup := by
  rw [upsertRow_map_id]
  by_cases hany : (store.any fun row => row.document_id = r.document_id) = true
  · simpa [hany] using h
  · rw [if_neg hany, List.nodup_append]
    refine ⟨h, List.nodup_singleton _, ?_⟩
    intro a ha hb
    rcases List.mem_map.mp ha with ⟨row, hrow, rfl⟩
    rw [List.mem_singleton] at hb
    rw [Bool.not_eq_true, List.any_eq_false] at hany
    exact absurd (by simpa using hb) (by simpa using hany row hrow)

theorem upsertRow_mem_id (store : List DbRow) (ts : Nat) (r : DbNewRecord) :
    r.document_id ∈ (upsertRow store ts r).map (fun row => row.document_id) := by
  rw [upsertRow_map_id]
  by_cases hany : (store.any fun row => row.document_id = r.document_id) = true
  · rw [if_pos hany]
    rcases List.any_eq_true.mp hany with ⟨row, hrow, hid⟩
    exact List.mem_map.mpr ⟨row, hrow, by simpa using hid⟩
  · simp [hany]

theorem length_filter_key_eq_one {α β : Type} [DecidableEq α] (f : β → α)
    (l : List β) (a : α) (h : (l.map f).Nodup) (ha : a ∈ l.map f) :
    (l.filter (fun x => f x = a)).length = 1 := by
  induction l with
  | nil => simp at ha
  | cons b l ih =>
    rw [List.map_cons, List.nodup_cons] at h
    rcases List.mem_map.mp ha with ⟨x, hx, rfl⟩
    rcases List.mem_cons.mp hx with rfl | hx
    · rw [List.filter_cons, if_pos (by simp)]
      have hnil : l.filter (fun y => f y = f x) = [] := by
        rw [List.filter_eq_nil_iff]
        intro y hy hfy
        exact h.1 (List.mem_map.mpr ⟨y, hy, by simpa using hfy⟩)
      simp [hnil]
    · have hne : ¬ (f b = f x) := by
        intro he
        exact h.1 (he ▸ List.mem_map.mpr ⟨x, hx, rfl⟩)
      rw [List.filter_cons, if_neg (by simpa using hne)]
      exact ih h.2 (List.mem_map.mpr ⟨x, hx, rfl⟩)

/-- C4. For every store with unique ids, writing a record through
`saveSummaryToDatabase` twice with the same `document_id` (the second
write carrying a full payload, meeting date included) leaves exactly
one persisted row for that id, whose mutable fields
(title/date/summary/url) all equal the second write's values; and no
single write ever breaks id-uniqueness, so no sequence of writes
produces two rows for one id. -/
theorem claim_C4 (store : List DbRow) (ts1 ts2 : Nat)
    (sd1 sd2 : SummaryData) (md1 md2 : Option DocMetadata)
    (hnodup : (store.map (fun row => row.document_id)).Nodup)
    (hid : sd1.document_id = sd2.document_id)
    (hdate : (buildDbRecord sd2 md2).meeting_date.isSome = true) :
    (((saveSummaryToDatabase (saveSummaryToDatabase store ts1 sd1 md1) ts2 sd2 md2).filter
        (fun row => row.document_id = sd2.document_id)).length = 1)
    ∧ (∀ row ∈ saveSummaryToDatabase (saveSummaryToDatabase store ts1 sd1 md1) ts2 sd2 md2,
        row.document_id = sd2.document_id →
          row.summary = sd2.summary
          ∧ row.original_url = originalUrlFor sd2.document_id
          ∧ row.meeting_title = (buildDbRecord sd2 md2).meeting_title
          ∧ row.meeting_date = (buildDbRecord sd2 md2).meeting_date)
    ∧ ((saveSummaryToDatabase (saveSummaryToDatabase store ts1 sd1 md1) ts2 sd2 md2).map
        (fun row => row.document_id)).Nodup
    ∧ (∀ (store2 : List DbRow) (ts : Nat) (sd : SummaryData) (md : Option DocMetadata),
        (store2.map (fun row => row.document_id)).Nodup →
        ((saveSummaryToDatabase store2 ts sd md).map (fun row => row.document_id)).Nodup) := by
  have hstep1 : ((saveSummaryToDatabase store ts1 sd1 md1).map
      (fun row => row.document_id)).Nodup := upsertRow_nodup _ _ _ hnodup
  have hmem1 : sd2.document_id ∈ (saveSummaryToDatabase store ts1 sd1 md1).map
      (fun row => row.document_id) := by
    have := upsertRow_mem_id store ts1 (buildDbRecord sd1 md1)
    rw [show (buildDbRecord sd1 md1).document_id = sd1.document_id from rfl, hid] at this
    exact this
  have hany2 : (saveSummaryToDatabase store ts1 sd1 md1).any
      (fun row => row.document_id = (buildDbRecord sd2 md2).document_id) = true := by
    rcases List.mem_map.mp hmem1 with ⟨row, hrow, hrid⟩
    exact List.any_eq_true.mpr ⟨row, hrow, by simpa using hrid⟩
  have hform : saveSummaryToDatabase (saveSummaryToDatabase store ts1 sd1 md1) ts2 sd2 md2
      = (saveSummaryToDatabase store ts1 sd1 md1).map
          (fun row => if row.document_id = (buildDbRecord sd2 md2).document_id
                      then upsertApply row (buildDbRecord sd2 md2) else row) := by
    show upsertRow _ ts2 _ = _
    rw [upsertRow, if_pos hany2]
  have hfields : ∀ row ∈ saveSummaryToDatabase (saveSummaryToDatabase store ts1 sd1 md1) ts2 sd2 md2,
      row.document_id = sd2.document_id →
        row.summary = sd2.summary
        ∧ row.original_url = originalUrlFor sd2.document_id
        ∧ row.meeting_title = (buildDbRecord sd2 md2).meeting_title
        ∧ row.meeting_date = (buildDbRecord sd2 md2).meeting_date := by
    intro row hrow hrid
    rw [hform] at hrow
    rcases List.mem_map.mp hrow with ⟨row0, _, rfl⟩
    by_cases h0 : row0.document_id = (buildDbRecord sd2 md2).document_id
    · rcases Option.isSome_iff_exists.mp hdate with ⟨d, hd⟩
      exact ⟨by simp [h0, upsertApply, buildDbRecord],
        by simp [h0, upsertApply, buildDbRecord],
        by simp [h0, upsertApply],
        by simp [h0, upsertApply, hd]⟩
    · rw [if_neg h0] at hrid ⊢
      exact absurd hrid h0
  have hnodup2 : ((saveSummaryToDatabase (saveSummaryToDatabase store ts1 sd1 md1) ts2 sd2 md2).map
      (fun row => row.document_id)).Nodup := upsertRow_nodup _ _ _ hstep1
  have hmem2 : sd2.document_id ∈ (saveSummaryToDatabase (saveSummaryToDatabase store ts1 sd1 md1)
      ts2 sd2 md2).map (fun row => row.document_id) :=
    upsertRow_mem_id _ ts2 (buildDbRecord sd2 md2)
  exact ⟨length_filter_key_eq_one (fun row : DbRow => row.document_id) _ _ hnodup2 hmem2,
    hfields, hnodup2, fun store2 ts sd md h => upsertRow_nodup _ _ _ h⟩

/-- C4 witness: the theorem applied to the empty store and two
identical full writes for document id 7. -/
theorem claim_C4_witness :
    (((saveSummaryToDatabase (saveSummaryToDatabase [] 1 exampleSummaryData
        (some exampleMetadata)) 2 exampleSummaryData (some exampleMetadata)).filter
        (fun row => row.document_id = exampleSummaryData.document_id)).length = 1)
    ∧ (((saveSummaryToDatabase (saveSummaryToDatabase [] 1 exampleSummaryData
        (some exampleMetadata)) 2 exampleSummaryData (some exampleMetadata)).map
        (fun row => row.document_id)).Nodup) := by
  have h := claim_C4 [] 1 2 exampleSummaryData exampleSummaryData
    (some exampleMetadata) (some exampleMetadata) (by simp) rfl (by decide)
  exact ⟨h.1, h.2.2.1⟩

/-! ## C5: `cleanText` — run-collapsing lemmas -/

theorem noRunOverGo_mono (ch : Char) (cap : Nat) :
    ∀ (l : List Char) (a b : Nat), b ≤ a →
      noRunOverGo ch cap a l = true → noRunOverGo ch cap b l = true := by
  intro l
  induction l with
  | nil => intro a b _ _; rfl
  | cons c cs ih =>
    intro a b hba h
    by_cases hc : c = ch
    · rw [noRunOverGo, if_pos hc] at h ⊢
      rw [Bool.and_eq_true, decide_eq_true_eq] at h ⊢
      exact ⟨Nat.le_trans (Nat.add_le_add_right hba 1) h.1,
        ih (a + 1) (b + 1) (Nat.add_le_add_right hba 1) h.2⟩
    · rw [noRunOverGo, if_neg hc] at h ⊢
      exact h

theorem noRunOverGo_replicate (ch : Char) (cap : Nat) :
    ∀ (j a : Nat) (rest : List Char), a + j ≤ cap →
      noRunOverGo ch cap a (List.replicate j ch ++ rest)
        = noRunOverGo ch cap (a + j) rest := by
  intro j
  induction j with
  | zero => intro a rest _; simp
  | succ j ih =>
    intro a rest h
    rw [List.replicate_succ, List.cons_append, noRunOverGo, if_pos rfl,
      ih (a + 1) rest (by omega), show a + 1 + j = a + (j + 1) by omega]
    have : a + 1 ≤ cap := by omega
    simp [this]

theorem noRunOverGo_replicate_other (ch ch' : Char) (cap : Nat) (hne : ch' ≠ ch) :
    ∀ (j a : Nat) (rest : List Char),
      noRunOverGo ch cap a (List.replicate j ch' ++ rest)
        = noRunOverGo ch cap (if j = 0 then a else 0) rest := by
  intro j
  induction j with
  | zero => intro a rest; simp
  | succ j ih =>
    intro a rest
    rw [List.replicate_succ, List.cons_append, noRunOverGo, if_neg hne,
      ih 0 rest]
    simp

theorem collapseRunGo_identity (ch : Char) (cap : Nat) :
    ∀ (l : List Char) (k : Nat), k ≤ cap →
      noRunOverGo ch cap k l = true →
      collapseRunGo ch cap k l = List.replicate k ch ++ l := by
  intro l
  induction l with
  | nil =>
    intro k hk _
    rw [collapseRunGo, Nat.min_eq_left hk, List.append_nil]
  | cons c cs ih =>
    intro k hk h
    by_cases hc : c = ch
    · rw [noRunOverGo, if_pos hc] at h
      rw [Bool.and_eq_true, decide_eq_true_eq] at h
      rw [collapseRunGo, if_pos hc, ih (k + 1) h.1 h.2, hc,
        List.replicate_succ' k ch]
      simp
    · rw [noRunOverGo, if_neg hc] at h
      rw [collapseRunGo, if_neg hc, Nat.min_eq_left hk,
        ih 0 (Nat.zero_le cap) h]
      simp

theorem collapseRunGo_noRunOver (ch : Char) (cap : Nat) :
    ∀ (l : List Char) (k : Nat),
      noRunOver ch cap (collapseRunGo ch cap k l) = true := by
  intro l
  induction l with
  | nil =>
    intro k
    rw [collapseRunGo, noRunOver, show (List.replicate (min k cap) ch)
        = List.replicate (min k cap) ch ++ [] by simp,
      noRunOverGo_replicate ch cap _ 0 [] (by omega)]
    rfl
  | cons c cs ih =>
    intro k
    by_cases hc : c = ch
    · rw [collapseRunGo, if_pos hc]
      exact ih (k + 1)
    · rw [collapseRunGo, if_neg hc, noRunOver,
        noRunOverGo_replicate ch cap _ 0 _ (by omega), noRunOverGo, if_neg hc]
      exact ih 0

theorem collapseRunGo_preserves (ch ch' : Char) (cap cap' : Nat)
    (hne : ch' ≠ ch) (hcap : 1 ≤ cap') :
    ∀ (l : List Char) (k a : Nat),
      noRunOverGo ch cap (if k = 0 then a else 0) l = true →
      noRunOverGo ch cap a (collapseRunGo ch' cap' k l) = true := by
  intro l
  induction l with
  | nil =>
    intro k a _
    rw [collapseRunGo, show (List.replicate (min k cap') ch')
        = List.replicate (min k cap') ch' ++ [] by simp,
      noRunOverGo_replicate_other ch ch' cap hne]
    rfl
  | cons c cs ih =>
    intro k a h
    by_cases hc' : c = ch'
    · rw [collapseRunGo, if_pos hc']
      refine ih (k + 1) a ?_
      rw [if_neg (Nat.succ_ne_zero k)]
      rw [noRunOverGo, hc', if_neg hne] at h
      exact h
    · rw [collapseRunGo, if_neg hc',
        noRunOverGo_replicate_other ch ch' cap hne]
      by_cases hk : k = 0
      · rw [if_pos (show k ⊓ cap' = 0 by omega)]
        rw [if_pos hk] at h
        by_cases hc : c = ch
        · rw [noRunOverGo, if_pos hc] at h ⊢
          rw [Bool.and_eq_true] at h ⊢
          refine ⟨h.1, ?_⟩
          have hrec := ih 0 (a + 1)
          rw [if_pos rfl] at hrec
          exact hrec h.2
        · rw [noRunOverGo, if_neg hc] at h ⊢
          have hrec := ih 0 0
          rw [if_pos rfl] at hrec
          exact hrec h
      · rw [if_neg (show ¬ k ⊓ cap' = 0 by omega)]
        rw [if_neg hk] at h
        by_cases hc : c = ch
        · rw [noRunOverGo, if_pos hc] at h ⊢
          rw [Bool.and_eq_true] at h ⊢
          refine ⟨h.1, ?_⟩
          have hrec := ih 0 (0 + 1)
          rw [if_pos rfl] at hrec
          exact hrec h.2
        · rw [noRunOverGo, if_neg hc] at h ⊢
          have hrec := ih 0 0
          rw [if_pos rfl] at hrec
          exact hrec h

theorem noRunOverGo_append_left (ch : Char) (cap : Nat) (l2 : List Char) :
    ∀ (l1 : List Char) (a : Nat),
      noRunOverGo ch cap a (l1 ++ l2) = true → noRunOverGo ch cap a l1 = true := by
  intro l1
  induction l1 with
  | nil => intro a _; rfl
  | cons c cs ih =>
    intro a h
    by_cases hc : c = ch
    · rw [List.cons_append, noRunOverGo, if_pos hc] at h
      rw [noRunOverGo, if_pos hc]
      rw [Bool.and_eq_true] at h ⊢
      exact ⟨h.1, ih (a + 1) h.2⟩
    · rw [List.cons_append, noRunOverGo, if_neg hc] at h
      rw [noRunOverGo, if_neg hc]
      exact ih 0 h

theorem noRunOverGo_append_right (ch : Char) (cap : Nat) (l2 : List Char) :
    ∀ (l1 : List Char) (a : Nat),
      noRunOverGo ch cap a (l1 ++ l2) = true → noRunOverGo ch cap 0 l2 = true := by
  intro l1
  induction l1 with
  | nil => intro a h; exact noRunOverGo_mono ch cap l2 a 0 (Nat.zero_le a) h
  | cons c cs ih =>
    intro a h
    by_cases hc : c = ch
    · rw [List.cons_append, noRunOverGo, if_pos hc, Bool.and_eq_true] at h
      exact ih (a + 1) h.2
    · rw [List.cons_append, noRunOverGo, if_neg hc] at h
      exact ih 0 h

/-! ## C5: footer-pattern lemmas -/

theorem dropLit_decomp : ∀ (p l r : List Char), dropLit p l = some r → l = p ++ r := by
  intro p
  induction p with
  | nil =>
    intro l r h
    rw [dropLit] at h
    simpa using Option.some.inj h
  | cons c p ih =>
    intro l r h
    cases l with
    | nil => simp [dropLit] at h
    | cons x l =>
      rw [dropLit] at h
      by_cases hx : x = c
      · rw [if_pos hx] at h
        rw [List.cons_append, hx, ih l r h]
      · rw [if_neg hx] at h
        exact absurd h (by simp)

theorem dropLit_append_self : ∀ (p x : List Char), dropLit p (p ++ x) = some x := by
  intro p
  induction p with
  | nil => intro x; rfl
  | cons c p ih => intro x; rw [List.cons_append, dropLit, if_pos rfl, ih]

theorem takeDigits_cons_rest (l2 : List Char) :
    ∀ (l : List Char) (n : Nat) (c : Char) (r : List Char),
      takeDigits l = (n, c :: r) →
      takeDigits (l ++ l2) = (n, c :: (r ++ l2)) := by
  intro l
  induction l with
  | nil => intro n c r h; simp [takeDigits] at h
  | cons x xs ih =>
    intro n c r h
    rw [takeDigits] at h
    by_cases hx : x.isDigit
    · rw [if_pos hx] at h
      rw [List.cons_append, takeDigits, if_pos hx]
      cases h2 : takeDigits xs with
      | mk m rest =>
        rw [h2] at h
        cases rest with
        | nil => simp at h
        | cons c2 r2 =>
          have h3 : m + 1 = n ∧ c2 = c ∧ r2 = r := by
            simpa using h
          rw [ih m c2 r2 h2, ← h3.1, h3.2.1, h3.2.2]
    · rw [if_neg hx] at h
      have h3 : 0 = n ∧ x = c ∧ xs = r := by simpa using h
      rw [List.cons_append, takeDigits, if_neg hx, ← h3.1, h3.2.1, h3.2.2]

theorem takeDigits_pos_append (l2 : List Char) :
    ∀ l : List Char, 1 ≤ (takeDigits l).1 → 1 ≤ (takeDigits (l ++ l2)).1 := by
  intro l h
  cases l with
  | nil => simp [takeDigits] at h
  | cons x xs =>
    by_cases hx : x.isDigit = true
    · rw [List.cons_append]
      simp only [takeDigits, if_pos hx]
      omega
    · rw [takeDigits, if_neg hx] at h
      simp at h

theorem matchFooter_append (l l2 r : List Char) (h : matchFooter l = some r) :
    (matchFooter (l ++ l2)).isSome = true := by
  cases h1 : dropLit "Page ".toList l with
  | none => rw [matchFooter, h1] at h; exact absurd h (by simp)
  | some r1 =>
    rw [matchFooter, h1, Option.some_bind] at h
    by_cases hd1 : (takeDigits r1).1 = 0
    · rw [if_pos hd1] at h; exact absurd h (by simp)
    · rw [if_neg hd1] at h
      cases h2 : dropLit " of ".toList (takeDigits r1).2 with
      | none => rw [h2] at h; exact absurd h (by simp)
      | some r3 =>
        rw [h2, Option.some_bind] at h
        by_cases hd2 : (takeDigits r3).1 = 0
        · rw [if_pos hd2] at h; exact absurd h (by simp)
        · have hl : l = "Page ".toList ++ r1 := dropLit_decomp _ _ _ h1
          cases hrest : (takeDigits r1).2 with
          | nil =>
            rw [hrest] at h2
            rw [show dropLit " of ".toList ([] : List Char) = none from rfl] at h2
            exact absurd h2 (by simp)
          | cons c rest =>
            have htd2 : takeDigits (r1 ++ l2) = ((takeDigits r1).1, c :: (rest ++ l2)) :=
              takeDigits_cons_rest l2 r1 _ c rest (by rw [← hrest])
            have h2b : dropLit " of ".toList (c :: (rest ++ l2)) = some (r3 ++ l2) := by
              have hdec : c :: rest = " of ".toList ++ r3 := by
                rw [← hrest]; exact dropLit_decomp _ _ _ h2
              rw [show c :: (rest ++ l2) = (c :: rest) ++ l2 from rfl, hdec,
                List.append_assoc]
              exact dropLit_append_self _ _
            have hd2b : ¬ (takeDigits (r3 ++ l2)).1 = 0 := by
              have := takeDigits_pos_append l2 r3 (by omega)
              omega
            rw [matchFooter, hl, List.append_assoc, dropLit_append_self,
              Option.some_bind]
            simp only [htd2]
            rw [if_neg hd1, h2b, Option.some_bind, if_neg hd2b]
            rfl

theorem noFooter_tail (c : Char) (cs : List Char) (h : noFooter (c :: cs) = true) :
    noFooter cs = true := by
  rw [noFooter, Bool.and_eq_true] at h
  exact h.2

theorem noFooter_append_right :
    ∀ l1 l2 : List Char, noFooter (l1 ++ l2) = true → noFooter l2 = true := by
  intro l1
  induction l1 with
  | nil => intro l2 h; exact h
  | cons c cs ih => intro l2 h; exact ih l2 (noFooter_tail _ _ h)

theorem noFooter_append_left :
    ∀ l1 l2 : List Char, noFooter (l1 ++ l2) = true → noFooter l1 = true := by
  intro l1
  induction l1 with
  | nil => intro l2 _; rfl
  | cons c cs ih =>
    intro l2 h
    rw [List.cons_append, noFooter, Bool.and_eq_true] at h
    rw [noFooter, Bool.and_eq_true]
    refine ⟨?_, ih l2 h.2⟩
    cases hm : matchFooter (c :: cs) with
    | none => rfl
    | some r =>
      have := matchFooter_append (c :: cs) l2 r hm
      rw [show (c :: cs) ++ l2 = c :: (cs ++ l2) from rfl] at this
      rw [Option.isNone_iff_eq_none] at h
      rw [h.1] at this
      simp at this

theorem stripFootersGo_identity :
    ∀ (fuel : Nat) (l : List Char), noFooter l = true → stripFootersGo fuel l = l := by
  intro fuel
  induction fuel with
  | zero => intro l _; rfl
  | succ fuel ih =>
    intro l h
    cases l with
    | nil => rfl
    | cons c cs =>
      rw [noFooter, Bool.and_eq_true, Option.isNone_iff_eq_none] at h
      rw [stripFootersGo, h.1]
      rw [ih cs h.2]

theorem stripFooters_identity (l : List Char) (h : noFooter l = true) :
    stripFooters l = l :=
  stripFootersGo_identity l.length l h

/-! ## C5: `pyStrip` lemmas -/

theorem dropWhile_self_idem (p : Char → Bool) :
    ∀ l : List Char, (l.dropWhile p).dropWhile p = l.dropWhile p := by
  intro l
  induction l with
  | nil => rfl
  | cons c cs ih =>
    by_cases hc : p c = true
    · rw [List.dropWhile_cons, if_pos hc, ih]
    · rw [List.dropWhile_cons, if_neg hc, List.dropWhile_cons, if_neg hc]

theorem dropWhile_head_false (p : Char → Bool) :
    ∀ (l : List Char) (c : Char) (cs : List Char),
      l.dropWhile p = c :: cs → p c = false := by
  intro l
  induction l with
  | nil => intro c cs h; simp at h
  | cons x xs ih =>
    intro c cs h
    by_cases hx : p x = true
    · rw [List.dropWhile_cons, if_pos hx] at h
      exact ih c cs h
    · rw [List.dropWhile_cons, if_neg hx] at h
      rw [← (List.cons.inj h).1]
      simpa using hx

theorem pyStripList_decomp (l : List Char) :
    ∃ l0 l1 : List Char, l = l0 ++ pyStripList l ++ l1 := by
  refine ⟨l.takeWhile pyWhitespace,
    ((l.dropWhile pyWhitespace).reverse.takeWhile pyWhitespace).reverse, ?_⟩
  unfold pyStripList
  conv_lhs => rw [← List.takeWhile_append_dropWhile (p := pyWhitespace) (l := l)]
  rw [List.append_assoc]
  congr 1
  conv_lhs => rw [← List.reverse_reverse (l.dropWhile pyWhitespace),
    ← List.takeWhile_append_dropWhile (p := pyWhitespace)
      (l := (l.dropWhile pyWhitespace).reverse)]
  rw [List.reverse_append]

theorem pyStripList_idem (l : List Char) :
    pyStripList (pyStripList l) = pyStripList l := by
  have hrev : (pyStripList l).reverse.dropWhile pyWhitespace = (pyStripList l).reverse := by
    unfold pyStripList
    rw [List.reverse_reverse]
    exact dropWhile_self_idem pyWhitespace _
  have hfwd : (pyStripList l).dropWhile pyWhitespace = pyStripList l := by
    cases hs : pyStripList l with
    | nil => rfl
    | cons c cs =>
      have hpre : ∃ t, l.dropWhile pyWhitespace = (c :: cs) ++ t := by
        refine ⟨((l.dropWhile pyWhitespace).reverse.takeWhile pyWhitespace).reverse, ?_⟩
        rw [← hs]
        unfold pyStripList
        conv_lhs => rw [← List.reverse_reverse (l.dropWhile pyWhitespace),
          ← List.takeWhile_append_dropWhile (p := pyWhitespace)
            (l := (l.dropWhile pyWhitespace).reverse)]
        rw [List.reverse_append]
      rcases hpre with ⟨t, ht⟩
      have hc : pyWhitespace c = false := dropWhile_head_false pyWhitespace l c (cs ++ t) ht
      rw [List.dropWhile_cons, if_neg (by simp [hc])]
  calc pyStripList (pyStripList l)
      = (((pyStripList l).dropWhile pyWhitespace).reverse.dropWhile
          pyWhitespace).reverse := rfl
    _ = ((pyStripList l).reverse.dropWhile pyWhitespace).reverse := by rw [hfwd]
    _ = (pyStripList l).reverse.reverse := by rw [hrev]
    _ = pyStripList l := List.reverse_reverse _

/-! ## C5: the claim theorems -/

/-- C5 counterexample: `cleanText` is not idempotent — on
"a Page 1 of 2 b" the footer removal leaves a doubled space
("a  b"), which a second pass collapses to "a b". -/
theorem claim_C5_counterexample :
    ¬ (∀ s : String, cleanText (cleanText s) = cleanText s) := by
  intro h
  exact absurd (h "a Page 1 of 2 b") (by decide)

/-- C5 (amended). `cleanText` collapses 3-or-more consecutive newlines
to exactly one blank line (`cleanText "a\n\n\n\nb" = "a\n\nb"`),
collapses runs of 2-or-more spaces to one, strips `Page N of M` footer
patterns, and trims leading/trailing whitespace; it is idempotent on
every input on which the footer-removal pass is a no-op, but not in
general, because removing a footer can splice the surrounding
whitespace into a new run. -/
theorem claim_C5 :
    (∀ s : String,
      noFooter (collapseSpaces (collapseNewlines s.toList)) = true →
      cleanText (cleanText s) = cleanText s)
    ∧ cleanText "a\n\n\n\nb" = "a\n\nb"
    ∧ cleanText "a  b" = "a b"
    ∧ cleanText "x Page 12 of 34 y" = "x  y"
    ∧ cleanText "  hi\n " = "hi" := by
  refine ⟨?_, by decide, by decide, by decide, by decide⟩
  intro s h
  by_cases hs : s = ""
  · rw [hs]
    decide
  · set t := collapseSpaces (collapseNewlines s.toList) with htdef
    have hclean1 : cleanText s = String.mk (pyStripList t) := by
      unfold cleanText
      rw [if_neg hs, stripFooters_identity _ h]
    have ht_nl : noRunOver '\n' 2 t = true := by
      rw [htdef]
      exact collapseRunGo_preserves '\n' ' ' 2 1 (by decide) (Nat.le_refl 1)
        (collapseNewlines s.toList) 0 0
        (by rw [if_pos rfl]; exact collapseRunGo_noRunOver '\n' 2 s.toList 0)
    have ht_sp : noRunOver ' ' 1 t = true := by
      rw [htdef]
      exact collapseRunGo_noRunOver ' ' 1 (collapseNewlines s.toList) 0
    obtain ⟨l0, l1, hdec⟩ := pyStripList_decomp t
    have hdec2 : t = l0 ++ (pyStripList t ++ l1) := by
      rw [← List.append_assoc]; exact hdec
    have h_nl_o : noRunOver '\n' 2 (pyStripList t) = true :=
      noRunOverGo_append_left '\n' 2 l1 (pyStripList t) 0
        (noRunOverGo_append_right '\n' 2 (pyStripList t ++ l1) l0 0
          (by rw [← hdec2]; exact ht_nl))
    have h_sp_o : noRunOver ' ' 1 (pyStripList t) = true :=
      noRunOverGo_append_left ' ' 1 l1 (pyStripList t) 0
        (noRunOverGo_append_right ' ' 1 (pyStripList t ++ l1) l0 0
          (by rw [← hdec2]; exact ht_sp))
    have h_ft_o : noFooter (pyStripList t) = true :=
      noFooter_append_left _ l1
        (noFooter_append_right l0 _ (by rw [← hdec2]; exact h))
    have hcn : collapseNewlines (pyStripList t) = pyStripList t := by
      show collapseRunGo '\n' 2 0 (pyStripList t) = pyStripList t
      simpa using collapseRunGo_identity '\n' 2 (pyStripList t) 0 (by omega) h_nl_o
    have hcs : collapseSpaces (pyStripList t) = pyStripList t := by
      show collapseRunGo ' ' 1 0 (pyStripList t) = pyStripList t
      simpa using collapseRunGo_identity ' ' 1 (pyStripList t) 0 (by omega) h_sp_o
    rw [hclean1]
    by_cases hoe : pyStripList t = []
    · rw [hoe]
      decide
    · have hmkne : ¬ (String.mk (pyStripList t) = "") := by
        intro he
        exact hoe (by simpa using congrArg String.data he)
      unfold cleanText
      rw [if_neg hmkne,
        show (String.mk (pyStripList t)).toList = pyStripList t from rfl,
        hcn, hcs, stripFooters_identity _ h_ft_o, pyStripList_idem]

/-- C5 witness: the conditional-idempotence clause applied to the
spec's newline-collapse example, whose cleaned form contains no footer
pattern. -/
theorem claim_C5_witness :
    noFooter (collapseSpaces (collapseNewlines ("a\n\n\n\nb" : String).toList)) = true
    ∧ cleanText (cleanText "a\n\n\n\nb") = cleanText "a\n\n\n\nb" :=
  ⟨by decide, claim_C5.1 "a\n\n\n\nb" (by decide)⟩

end CityScope
